import Mathlib

/-!
Verification of the lamarck caption generator (src/src/captions.rs) against its
natural-language specification.  The rendering core (modules srt and
beast_captions, declared at captions.rs:18-21) is not present in the sources,
so those definitions are modelled from the specification; everything else is
translated from src/src/captions.rs.
-/

namespace Lamarck

/-! ## Path model

String-level model of the std::path / camino UTF-8 path operations used by
generate_captions: file_name, parent, file_stem, set_extension.  Paths are
plain UTF-8 strings separated by the slash character.
-/

/-- Splits a character list at every slash, keeping empty segments.
Leftmost segment first, mirroring component iteration of a path string. -/
def splitOnSlash : List Char → List (List Char)
  | [] => [[]]
  | c :: rest =>
    if c = '/' then [] :: splitOnSlash rest
    else
      match splitOnSlash rest with
      | [] => [[c]]
      | g :: gs => (c :: g) :: gs

/-- Whether the path string starts with a slash (has a root component). -/
def hasRoot (p : String) : Bool :=
  p.data.head? == some '/'

/-- The normal components of a path: slash-separated segments with empty
segments and current-directory segments dropped, as std::path does. -/
def pathComponents (p : String) : List String :=
  ((splitOnSlash p.data).map String.mk).filter (fun c => c != "" && c != ".")

/-- Model of Utf8Path::file_name: the final component, unless the path is
empty, is a root, or ends in a parent-directory component. -/
def fileName (p : String) : Option String :=
  match (pathComponents p).getLast? with
  | none => none
  | some c => if c = ".." then none else some c

/-- Model of Utf8Path::parent: the path without its final component; none for
an empty path or a bare root. -/
def parentStr (p : String) : Option String :=
  match pathComponents p with
  | [] => none
  | [_] => some (if hasRoot p then "/" else "")
  | cs => some ((if hasRoot p then "/" else "") ++ String.intercalate "/" cs.dropLast)

/-- Splits a character list at its last dot: stem part and extension part.
Returns none when no dot occurs. -/
def splitAtLastDot : List Char → Option (List Char × List Char)
  | [] => none
  | c :: rest =>
    match splitAtLastDot rest with
    | some (s, e) => some (c :: s, e)
    | none => if c = '.' then some ([], rest) else none

/-- Model of file_stem/extension on a file name: the portion before and after
the final dot; a name whose only dot is leading has no extension. -/
def fileStemExt (n : String) : String × Option String :=
  match splitAtLastDot n.data with
  | none => (n, none)
  | some ([], _) => (n, none)
  | some (c :: s, e) => (String.mk (c :: s), some (String.mk e))

/-- Model of Utf8PathBuf::set_extension at the file-name level: truncate at
the final dot (if any, non-leading) and append a dot and the new extension. -/
def setExtFileName (n e : String) : String :=
  (fileStemExt n).1 ++ "." ++ e

/-- Model of Utf8Path::file_stem: stem of the file name, when one exists. -/
def fileStem (p : String) : Option String :=
  (fileName p).map (fun n => (fileStemExt n).1)

/-- The file name produced by set_extension on a whole path; when the path has
no file name, set_extension is a no-op and the write targets the path itself.
Used for the raw and transcript outputs (captions.rs:263-286). -/
def targetAfterSetExtension (loc ext : String) : String :=
  match fileName loc with
  | some n => setExtFileName n ext
  | none => loc

/-- captions.rs:140-143: the output location, defaulting to transcript.srt. -/
def outputLocation (output_path : Option String) : String :=
  output_path.getD "transcript.srt"

/-- captions.rs:144-168: whether the output directory is taken to exist.  The
filesystem is abstracted as the predicate fsExists. -/
def outputDirExists (fsExists : String → Bool) (loc : String) : Bool :=
  match fileName loc with
  | some _ =>
    match parentStr loc with
    | some parent => if parent = "" then true else fsExists parent
    | none => true
  | none => fsExists loc

/-! ## Data model of the transcription result

Modelled from the spec, section 3 (the deepgram response types are external to
the repository).  Seconds are represented as rationals.
-/

/-- Modelled from the spec: a recognized word with its time span; the rendered
text prefers the punctuated form when present. -/
structure Word where
  word : String
  punctuated_word : Option String
  start : ℚ
  stop : ℚ
deriving DecidableEq

/-- Modelled from the spec: a provider-segmented utterance with its text and
time span. -/
structure Utterance where
  text : String
  start : ℚ
  stop : ℚ
deriving DecidableEq

/-- Modelled from the spec: one recognition hypothesis for a channel. -/
structure Alternative where
  transcript : String
  words : List Word
  utterances : List Utterance
deriving DecidableEq

/-- Modelled from the spec: one recognition channel. -/
structure Channel where
  alternatives : List Alternative
deriving DecidableEq

/-- Modelled from the spec: the results payload of a transcription response. -/
structure Results where
  channels : List Channel
deriving DecidableEq

/-- Modelled from the spec: the root transcription response, accessed as
response.results.channels in captions.rs:275. -/
structure Response where
  results : Results
deriving DecidableEq

/-- The rendered text of a word: the punctuated form if present, else the raw
token (spec section 3, Word.text). -/
def wordText (w : Word) : String :=
  w.punctuated_word.getD w.word

/-! ## Timecode formatter and cue renderers

Modelled from the spec, sections 4.1-4.3 (srt.rs and beast_captions.rs are not
under src/).
-/

/-- Two-digit zero-padded decimal rendering of a natural number. -/
def pad2 (n : ℕ) : String :=
  if n < 10 then "0" ++ toString n else toString n

/-- Three-digit zero-padded decimal rendering of a natural number. -/
def pad3 (n : ℕ) : String :=
  if n < 100 then (if n < 10 then "00" else "0") ++ toString n else toString n

/-- Modelled from the spec: the timecode formatter.  Truncate the seconds
value to whole milliseconds, then decompose by integer division with bases
3600000 / 60000 / 1000 and print HH:MM:SS,mmm. -/
def formatTimecode (s : ℚ) : String :=
  let totalMs := (s * 1000).floor.toNat
  let hours := totalMs / 3600000
  let minutes := totalMs % 3600000 / 60000
  let seconds := totalMs % 60000 / 1000
  let millis := totalMs % 1000
  pad2 hours ++ ":" ++ pad2 minutes ++ ":" ++ pad2 seconds ++ "," ++ pad3 millis

/-- Modelled from the spec: one rendered subtitle cue. -/
structure Cue where
  index : ℕ
  start : ℚ
  stop : ℚ
  text : String
deriving DecidableEq

/-- Modelled from the spec: SRT serialization of one cue: the index line, the
timerange line, the text, then a blank separator line. -/
def serializeCue (c : Cue) : String :=
  toString c.index ++ "\n" ++ formatTimecode c.start ++ " --> " ++ formatTimecode c.stop
    ++ "\n" ++ c.text ++ "\n\n"

/-- Modelled from the spec: SRT serialization of a whole document. -/
def serializeDocument (cs : List Cue) : String :=
  String.join (cs.map serializeCue)

/-- Modelled from the spec: one cue per utterance, 1-based indices in order. -/
def utteranceCues (us : List Utterance) : List Cue :=
  us.enum.map (fun p => { index := p.1 + 1, start := p.2.start, stop := p.2.stop, text := p.2.text })

/-- Modelled from the spec: one cue per word, 1-based indices in order. -/
def wordCues (ws : List Word) : List Cue :=
  ws.enum.map (fun p => { index := p.1 + 1, start := p.2.start, stop := p.2.stop, text := wordText p.2 })

/-- The utterance-cue document set, one serialized document per channel and
alternative, as iterated at captions.rs:289-295. -/
structure Srt where
  channels : List (List String)
deriving DecidableEq

/-- The word-cue document set ("beast captions"). -/
structure BeastCaptions where
  channels : List (List String)
deriving DecidableEq

/-- Modelled from the spec: the utterance cue renderer, an infallible
conversion from the response (Srt::from at captions.rs:289). -/
def srtFromResponse (r : Response) : Srt :=
  { channels := r.results.channels.map (fun ch =>
      ch.alternatives.map (fun alt => serializeDocument (utteranceCues alt.utterances))) }

/-- Modelled from the spec: the word cue renderer, an infallible conversion
from the response (BeastCaptions::from at captions.rs:312). -/
def beastCaptionsFromResponse (r : Response) : BeastCaptions :=
  { channels := r.results.channels.map (fun ch =>
      ch.alternatives.map (fun alt => serializeDocument (wordCues alt.words))) }

/-! ## Error type, audio-source resolution, language mapping

Translated from src/src/captions.rs.  External library payloads (io errors,
parse errors, mime guesses) are abstracted as strings.
-/

/-- A guessed media type: its top-level type (type_()) and its full textual
form (to_string()). -/
structure Mime where
  ty : String
  full : String
deriving DecidableEq

/-- captions.rs:86-121: the CaptionError enum, with each variant paired below
with its declared diagnostic code. -/
inductive CaptionError where
  | IoError : String → CaptionError
  | InputParseError : (url_error : String) → (file_error : String) → CaptionError
  | DeepgramError : String → CaptionError
  | OutputDirNotExistError : (output_dir : String) → CaptionError
  | MimeGuessError : (filepath : String) → CaptionError
  | InvalidMimeType : (guess : Mime) → CaptionError
deriving DecidableEq

/-- The diagnostic code attached to each CaptionError variant
(captions.rs:89, 95, 101, 107, 113, 119). -/
def diagnosticCode : CaptionError → String
  | .IoError _ => "lamarck::io_error"
  | .InputParseError _ _ => "lamarck::input_parse_error"
  | .DeepgramError _ => "lamarck::deepgram_error"
  | .OutputDirNotExistError _ => "lamarck::output_dir_not_exist"
  | .MimeGuessError _ => "lamarck::mime_could_not_guess"
  | .InvalidMimeType _ => "lamarck::mime_not_audio"

/-- The audio source handed to the transcription client: either a URL or an
opened file buffer with a mime type. -/
inductive AudioSource where
  | from_url : String → AudioSource
  | from_buffer_with_mime_type : (filepath : String) → (mime : String) → AudioSource
deriving DecidableEq

/-- Outcome of a code fragment that can succeed, return an error, or panic. -/
inductive SourceOutcome where
  | ok : AudioSource → SourceOutcome
  | err : CaptionError → SourceOutcome
  | panicked : SourceOutcome
deriving DecidableEq

/-- captions.rs:178-206: resolving the input string to an audio source.  URL
parsing, file opening and mime guessing are external effects, abstracted as
the parameters urlParses, fileOpens and mimeGuess.  When URL parsing fails the
file is opened with unwrap(), so a failed open is a panic, not an error. -/
def resolveSource (input : String) (urlParses : Bool) (fileOpens : Bool)
    (mimeGuess : Option Mime) : SourceOutcome :=
  if urlParses then .ok (.from_url input)
  else if fileOpens then
    match mimeGuess with
    | some guess =>
      if guess.ty ≠ "audio" then .err (.InvalidMimeType guess)
      else .ok (.from_buffer_with_mime_type input guess.full)
    | none => .err (.MimeGuessError input)
  else .panicked

/-- captions.rs:208-239: the deepgram Language values named in the mapping. -/
inductive Language where
  | zh | zh_CN | zh_TW | nl | en | en_AU | en_GB | en_IN | en_NZ | en_US
  | fr | fr_CA | de | hi | hi_Latn | id | it | ja | ko | pt | pt_BR
  | ru | es | es_419 | sv | tr | uk
deriving DecidableEq

/-- captions.rs:208-239: the free-form language string to Language mapping,
with the default arm mapping every unknown string to Language::en. -/
def map_string_to_language (string : String) : Language :=
  match string with
  | "zh" => Language.zh
  | "zh_cn" => Language.zh_CN
  | "zh_tw" => Language.zh_TW
  | "nl" => Language.nl
  | "en" => Language.en
  | "en_au" => Language.en_AU
  | "en_gb" => Language.en_GB
  | "en_in" => Language.en_IN
  | "en_nz" => Language.en_NZ
  | "en_us" => Language.en_US
  | "fr" => Language.fr
  | "fr_ca" => Language.fr_CA
  | "de" => Language.de
  | "hi" => Language.hi
  | "hi_latn" => Language.hi_Latn
  | "id" => Language.id
  | "it" => Language.it
  | "ja" => Language.ja
  | "ko" => Language.ko
  | "pt" => Language.pt
  | "pt_br" => Language.pt_BR
  | "ru" => Language.ru
  | "es" => Language.es
  | "es_419" => Language.es_419
  | "sv" => Language.sv
  | "tr" => Language.tr
  | "uk" => Language.uk
  | _ => Language.en

/-- The keys of the language lookup table, in source order. -/
def languageKeys : List String :=
  ["zh", "zh_cn", "zh_tw", "nl", "en", "en_au", "en_gb", "en_in", "en_nz",
   "en_us", "fr", "fr_ca", "de", "hi", "hi_latn", "id", "it", "ja", "ko",
   "pt", "pt_br", "ru", "es", "es_419", "sv", "tr", "uk"]

/-! ## The caption options and the file-writing section -/

/-- captions.rs:23-84: the Caption argument struct. -/
structure Caption where
  deepgram_api_key : String
  input : String
  output_path : Option String
  raw : Bool
  srt : Bool
  beast_captions : Bool
  transcript : Bool
  lang : Option String
  markdown : Bool
deriving DecidableEq

/-- One file creation: the target file name and the bytes written.  All
writes of generate_captions land in the parent directory of the output
location, which the model leaves implicit: path is the file-name part. -/
structure FileWrite where
  path : String
  contents : String
deriving DecidableEq

/-- All (channel index, alternative index, serialized document) triples of a
document set, in iteration order of the nested loops at captions.rs:290-294
and 313-317. -/
def docPairs (chans : List (List String)) : List (ℕ × ℕ × String) :=
  chans.enum.bind (fun p => p.2.enum.map (fun q => (p.1, q.1, q.2)))

/-- captions.rs:288-309 and 311-332: the per-document file writes of one
renderer section.  Each iteration calls file_stem().unwrap() on the output
location, so a location with no file stem panics (none) as soon as the
document set is non-empty; marker is empty for utterance cues and "-beast"
for word cues. -/
def captionWrites (marker loc : String) (chans : List (List String)) :
    Option (List FileWrite) :=
  match docPairs chans, fileStem loc with
  | [], _ => some []
  | _ :: _, none => none
  | ds, some st =>
    some (ds.map (fun t =>
      { path := setExtFileName
          (st ++ "-channel-" ++ toString t.1 ++ "-alternative-" ++ toString t.2.1 ++ marker)
          "srt",
        contents := t.2.2 }))

/-- captions.rs:288-309: the utterance-cue (srt) section's file writes. -/
def srtSectionWrites (loc : String) (r : Response) : Option (List FileWrite) :=
  captionWrites "" loc (srtFromResponse r).channels

/-- captions.rs:311-332: the word-cue (beast captions) section's writes. -/
def beastSectionWrites (loc : String) (r : Response) : Option (List FileWrite) :=
  captionWrites "-beast" loc (beastCaptionsFromResponse r).channels

/-- captions.rs:263-336: the output section of generate_captions, as the list
of file writes it performs: raw debug dump, plain transcript, utterance cues,
word cues.  Debug formatting of the response is abstracted as debugFmt; file
system writes are assumed to succeed (their io errors are orthogonal to the
claims).  none models a panic: the transcript branch indexes
channels[0].alternatives[0] (captions.rs:275-277) and the renderer sections
unwrap the file stem. -/
def rawWrites (debugFmt : Response → String) (opts : Caption)
    (resp : Response) (loc : String) : List FileWrite :=
  if opts.raw
  then [FileWrite.mk (targetAfterSetExtension loc "raw") (debugFmt resp)]
  else []

/-- captions.rs:274-286: the transcript output indexes
channels[0].alternatives[0]; a missing channel or alternative is a panic
(none). -/
def transcriptWrites (loc : String) (resp : Response) : Option (List FileWrite) :=
  match resp.results.channels.head? with
  | none => none
  | some ch =>
    match ch.alternatives.head? with
    | none => none
    | some alt => some [FileWrite.mk (targetAfterSetExtension loc "txt") alt.transcript]

def outputSectionWrites (debugFmt : Response → String) (opts : Caption)
    (resp : Response) (loc : String) : Option (List FileWrite) := do
  let rawW := rawWrites debugFmt opts resp loc
  let txtW ← if opts.transcript then transcriptWrites loc resp else some []
  let srtW ← if opts.srt then srtSectionWrites loc resp else some []
  let beastW ← if opts.beast_captions then beastSectionWrites loc resp else some []
  some (rawW ++ txtW ++ srtW ++ beastW)

/-- captions.rs:334-336: the markdown flag only emits a warning. -/
def outputSectionWarnings (opts : Caption) : List String :=
  if opts.markdown then ["markdown output is not yet implemented"] else []

/-! ## Concrete sample values used by witnesses and counterexamples -/

/-- A response with one channel holding one alternative with no words and no
utterances: both rendered documents are empty (zero cues). -/
def sampleResponse : Response :=
  { results := { channels := [{ alternatives := [{ transcript := "hi there", words := [], utterances := [] }] }] } }

/-- A response with no channels at all. -/
def emptyResponse : Response :=
  { results := { channels := [] } }

/-- Baseline options: raw output only, defaults elsewhere. -/
def sampleOpts : Caption :=
  { deepgram_api_key := "key", input := "in.wav", output_path := some "transcript.srt",
    raw := true, srt := false, beast_captions := false, transcript := false,
    lang := none, markdown := false }

/-! ## Helper lemmas -/

theorem data_append (s t : String) : (s ++ t).data = s.data ++ t.data := rfl

theorem mk_data (p : String) : String.mk p.data = p := rfl

theorem toString_nat (n : ℕ) : toString n = Nat.repr n := rfl

theorem data_eq_nil_iff (p : String) : p.data = [] ↔ p = "" := by
  constructor
  · intro h
    have h2 := congrArg String.mk h
    rwa [mk_data] at h2
  · intro h
    subst h
    rfl

theorem splitOnSlash_no_slash : ∀ cs : List Char, (∀ c ∈ cs, c ≠ '/') → splitOnSlash cs = [cs]
  | [], _ => rfl
  | c :: rest, h => by
    have hc : c ≠ '/' := h c (List.mem_cons_self c rest)
    have ih := splitOnSlash_no_slash rest (fun x hx => h x (List.mem_cons_of_mem _ hx))
    simp [splitOnSlash, hc, ih]

theorem pathComponents_bare (p : String) (hne : p ≠ "") (hs : ∀ c ∈ p.data, c ≠ '/')
    (hd : p ≠ ".") : pathComponents p = [p] := by
  unfold pathComponents
  rw [splitOnSlash_no_slash p.data hs]
  have hp : (p != "" && p != ".") = true := by simp [hne, hd]
  simp [mk_data, List.filter, hp]

theorem fileName_bare (p : String) (hne : p ≠ "") (hs : ∀ c ∈ p.data, c ≠ '/')
    (hd : p ≠ ".") (hdd : p ≠ "..") : fileName p = some p := by
  unfold fileName
  rw [pathComponents_bare p hne hs hd]
  simp [hdd]

theorem hasRoot_bare (p : String) (hne : p ≠ "") (hs : ∀ c ∈ p.data, c ≠ '/') :
    hasRoot p = false := by
  unfold hasRoot
  cases hsd : p.data with
  | nil => exact absurd ((data_eq_nil_iff p).mp hsd) hne
  | cons c t =>
    have : c ≠ '/' := hs c (by rw [hsd]; exact List.mem_cons_self c t)
    simp [this]

theorem parentStr_bare (p : String) (hne : p ≠ "") (hs : ∀ c ∈ p.data, c ≠ '/')
    (hd : p ≠ ".") : parentStr p = some "" := by
  unfold parentStr
  rw [pathComponents_bare p hne hs hd, hasRoot_bare p hne hs]
  rfl

theorem mem_of_getLast?_eq_some {α : Type} {l : List α} {a : α}
    (h : l.getLast? = some a) : a ∈ l := by
  have hm : a ∈ l.getLast? := by rw [h]; rfl
  obtain ⟨hne, rfl⟩ := List.mem_getLast?_eq_getLast hm
  exact List.getLast_mem hne

theorem fileName_ne_empty (p n : String) (h : fileName p = some n) : n ≠ "" := by
  unfold fileName at h
  cases hg : (pathComponents p).getLast? with
  | none => rw [hg] at h; exact absurd h (by simp)
  | some c =>
    rw [hg] at h
    simp only at h
    by_cases hc : c = ".."
    · rw [if_pos hc] at h; exact absurd h (by simp)
    · rw [if_neg hc] at h
      have hcn : c = n := by injection h
      have hmem : c ∈ pathComponents p := mem_of_getLast?_eq_some hg
      unfold pathComponents at hmem
      have hpred := (List.mem_filter.mp hmem).2
      rw [hcn] at hpred
      intro hempty
      rw [hempty] at hpred
      simp at hpred

theorem splitAtLastDot_eq_none : ∀ cs : List Char, (∀ c ∈ cs, c ≠ '.') →
    splitAtLastDot cs = none
  | [], _ => rfl
  | c :: rest, h => by
    have hc : c ≠ '.' := h c (List.mem_cons_self c rest)
    have ih := splitAtLastDot_eq_none rest (fun x hx => h x (List.mem_cons_of_mem _ hx))
    simp [splitAtLastDot, hc, ih]

theorem splitAtLastDot_append (xs ys : List Char) (hy : ∀ c ∈ ys, c ≠ '.') :
    splitAtLastDot (xs ++ '.' :: ys) = some (xs, ys) := by
  induction xs with
  | nil => simp [splitAtLastDot, splitAtLastDot_eq_none ys hy]
  | cons x xs ih => simp [splitAtLastDot, ih]

theorem fileStemExt_of_no_tail_dot (n : String) (h : ∀ c ∈ n.data.drop 1, c ≠ '.') :
    fileStemExt n = (n, none) := by
  unfold fileStemExt
  cases hd : n.data with
  | nil => rfl
  | cons c t =>
    have ht : splitAtLastDot t = none :=
      splitAtLastDot_eq_none t (by intro x hx; exact h x (by rw [hd]; simpa using hx))
    by_cases hc : c = '.'
    · simp [splitAtLastDot, ht, hc]
    · simp [splitAtLastDot, ht, hc]

theorem setExtFileName_of_no_tail_dot (n e : String) (h : ∀ c ∈ n.data.drop 1, c ≠ '.') :
    setExtFileName n e = n ++ "." ++ e := by
  unfold setExtFileName
  rw [fileStemExt_of_no_tail_dot n h]

theorem fileStemExt_fst_ne_empty (n : String) (h : n ≠ "") : (fileStemExt n).1 ≠ "" := by
  unfold fileStemExt
  cases hs : splitAtLastDot n.data with
  | none => simpa using h
  | some se =>
    rcases se with ⟨s, e⟩
    cases s with
    | nil => simpa using h
    | cons c cs =>
      simp only
      intro heq
      have := congrArg String.data heq
      simp at this

theorem fileStemExt_setExt (n e : String) (hn : n ≠ "") (he : ∀ c ∈ e.data, c ≠ '.') :
    fileStemExt (setExtFileName n e) = ((fileStemExt n).1, some e) := by
  obtain ⟨S, hSdef⟩ : ∃ S, (fileStemExt n).1 = S := ⟨_, rfl⟩
  rw [hSdef]
  have hS : S ≠ "" := hSdef ▸ fileStemExt_fst_ne_empty n hn
  have hdata : (setExtFileName n e).data = S.data ++ '.' :: e.data := by
    rw [show setExtFileName n e = (fileStemExt n).1 ++ "." ++ e from rfl, hSdef]
    simp [data_append]
  have hsplit : splitAtLastDot (setExtFileName n e).data = some (S.data, e.data) := by
    rw [hdata]
    exact splitAtLastDot_append _ _ he
  unfold fileStemExt
  rw [hsplit]
  cases hsd : S.data with
  | nil => exact absurd ((data_eq_nil_iff _).mp hsd) hS
  | cons c t =>
    show (String.mk (c :: t), some (String.mk e.data)) = (S, some e)
    rw [← hsd, mk_data, mk_data]

theorem rat_floor_eq_int_floor (q : ℚ) : q.floor = ⌊q⌋ := by
  rw [Rat.floor_def', ← Rat.floor_def]

theorem formatTimecode_eval (s : ℚ) (n : ℤ) (h : ⌊s * 1000⌋ = n) :
    formatTimecode s
      = pad2 (n.toNat / 3600000) ++ ":" ++ pad2 (n.toNat % 3600000 / 60000) ++ ":"
        ++ pad2 (n.toNat % 60000 / 1000) ++ "," ++ pad3 (n.toNat % 1000) := by
  unfold formatTimecode
  rw [rat_floor_eq_int_floor, h]

theorem digitChar_ne_dot (n : ℕ) : Nat.digitChar n ≠ '.' := by
  rcases Nat.lt_or_ge n 16 with h | h
  · interval_cases n <;> decide
  · have h0 : n ≠ 0 := by omega
    have h1 : n ≠ 1 := by omega
    have h2 : n ≠ 2 := by omega
    have h3 : n ≠ 3 := by omega
    have h4 : n ≠ 4 := by omega
    have h5 : n ≠ 5 := by omega
    have h6 : n ≠ 6 := by omega
    have h7 : n ≠ 7 := by omega
    have h8 : n ≠ 8 := by omega
    have h9 : n ≠ 9 := by omega
    have h10 : n ≠ 10 := by omega
    have h11 : n ≠ 11 := by omega
    have h12 : n ≠ 12 := by omega
    have h13 : n ≠ 13 := by omega
    have h14 : n ≠ 14 := by omega
    have h15 : n ≠ 15 := by omega
    simp only [Nat.digitChar, h0, h1, h2, h3, h4, h5, h6, h7, h8, h9, h10,
      h11, h12, h13, h14, h15, if_false]
    decide

theorem toDigitsCore_dotfree (b : ℕ) : ∀ (fuel n : ℕ) (acc : List Char),
    (∀ c ∈ acc, c ≠ '.') → ∀ c ∈ Nat.toDigitsCore b fuel n acc, c ≠ '.'
  | 0, _, _, h => by simpa [Nat.toDigitsCore] using h
  | fuel + 1, n, acc, h => by
    have hcons : ∀ c ∈ Nat.digitChar (n % b) :: acc, c ≠ '.' := by
      intro c hc
      rcases List.mem_cons.mp hc with rfl | hc
      · exact digitChar_ne_dot _
      · exact h c hc
    by_cases h0 : n / b = 0
    · simpa [Nat.toDigitsCore, h0] using hcons
    · simpa [Nat.toDigitsCore, h0] using
        toDigitsCore_dotfree b fuel (n / b) _ hcons

theorem natRepr_dotfree (n : ℕ) : ∀ c ∈ (Nat.repr n).data, c ≠ '.' := by
  have h : (Nat.repr n).data = Nat.toDigitsCore 10 (n + 1) n [] := rfl
  rw [h]
  exact toDigitsCore_dotfree 10 (n + 1) n [] (by simp)

theorem channelName_no_tail_dot (st marker : String) (c a : ℕ)
    (hst : ∀ x ∈ st.data.drop 1, x ≠ '.')
    (hm : ∀ x ∈ marker.data, x ≠ '.') :
    ∀ x ∈ (st ++ "-channel-" ++ toString c ++ "-alternative-" ++ toString a
        ++ marker).data.drop 1, x ≠ '.' := by
  have hch : ∀ y ∈ ("-channel-" : String).data, y ≠ '.' := by decide
  have hal : ∀ y ∈ ("-alternative-" : String).data, y ≠ '.' := by decide
  have hrest : ∀ x ∈ "-channel-".data ++ (Nat.repr c).data ++ "-alternative-".data
      ++ (Nat.repr a).data ++ marker.data, x ≠ '.' := by
    intro x hx
    simp only [List.mem_append] at hx
    rcases hx with ((((hx | hx) | hx) | hx) | hx)
    · exact hch x hx
    · exact natRepr_dotfree c x hx
    · exact hal x hx
    · exact natRepr_dotfree a x hx
    · exact hm x hx
  have hdata : (st ++ "-channel-" ++ toString c ++ "-alternative-" ++ toString a
      ++ marker).data
      = st.data ++ ("-channel-".data ++ (Nat.repr c).data ++ "-alternative-".data
        ++ (Nat.repr a).data ++ marker.data) := by
    simp [data_append, toString_nat, List.append_assoc]
  rw [hdata]
  cases hsd : st.data with
  | nil =>
    intro x hx
    exact hrest x (List.mem_of_mem_drop hx)
  | cons y t =>
    intro x hx
    rw [List.cons_append, List.drop_succ_cons, List.drop_zero] at hx
    rcases List.mem_append.mp hx with hx | hx
    · exact hst x (by rw [hsd]; simpa using hx)
    · exact hrest x hx

theorem captionWrites_eq (marker loc st : String) (chans : List (List String))
    (h : fileStem loc = some st) :
    captionWrites marker loc chans = some ((docPairs chans).map (fun t =>
      { path := setExtFileName
          (st ++ "-channel-" ++ toString t.1 ++ "-alternative-" ++ toString t.2.1 ++ marker)
          "srt",
        contents := t.2.2 })) := by
  unfold captionWrites
  rw [h]
  cases hd : docPairs chans with
  | nil => simp
  | cons d ds => simp

theorem docPairs_length (chans : List (List String)) :
    (docPairs chans).length = (chans.map List.length).sum := by
  unfold docPairs
  rw [List.length_bind]
  congr 1
  have hcomp : (List.length ∘ fun p : ℕ × List String => p.2.enum.map fun q => (p.1, q.1, q.2))
      = (List.length ∘ Prod.snd) := by
    funext p
    simp
  rw [hcomp, ← List.map_map, List.enum_map_snd]

theorem srt_channels_shape (r : Response) :
    (srtFromResponse r).channels.map List.length
      = r.results.channels.map (fun ch => ch.alternatives.length) := by
  simp [srtFromResponse, List.map_map, Function.comp_def]

theorem beast_channels_shape (r : Response) :
    (beastCaptionsFromResponse r).channels.map List.length
      = r.results.channels.map (fun ch => ch.alternatives.length) := by
  simp [beastCaptionsFromResponse, List.map_map, Function.comp_def]

/-! ## Claim theorems -/

/-- C1 counterexample: the claim says an InvalidTimestamp failure is surfaced
to the caller as an error result rather than being impossible to signal, but
the CaptionError enum of captions.rs:86-121 has no InvalidTimestamp variant:
no error value carries that diagnostic code. -/
theorem c1_counterexample :
    ¬ ∃ e : CaptionError, diagnosticCode e = "lamarck::invalid_timestamp" := by
  rintro ⟨e, h⟩
  cases e <;> simp [diagnosticCode] at h

/-- C1 (amended): rendering cannot fail at all.  Both renderers are total
conversions producing a complete document set (one document per channel and
alternative of the source response), and no CaptionError variant carries an
InvalidTimestamp diagnostic code, so no such error can be surfaced. -/
theorem c1_renderers_infallible (r : Response) :
    (srtFromResponse r).channels.map List.length
      = r.results.channels.map (fun ch => ch.alternatives.length)
    ∧ (beastCaptionsFromResponse r).channels.map List.length
      = r.results.channels.map (fun ch => ch.alternatives.length)
    ∧ ∀ e : CaptionError, diagnosticCode e ≠ "lamarck::invalid_timestamp" := by
  refine ⟨srt_channels_shape r, beast_channels_shape r, ?_⟩
  intro e
  cases e <;> simp [diagnosticCode]

/-- C3: the timecode formatter truncates to whole milliseconds (its output
depends only on the floor of seconds times 1000), decomposes by integer
division with bases 3600000 / 60000 / 1000, and formats 59.9999 as
00:00:59,999 rather than rounding up to 01:00:00,000. -/
theorem c3_timecode_truncation (s : ℚ) (h : 0 ≤ s) :
    formatTimecode s = formatTimecode ((⌊s * 1000⌋ : ℚ) / 1000)
    ∧ formatTimecode s
        = pad2 ((⌊s * 1000⌋).toNat / 3600000) ++ ":"
          ++ pad2 ((⌊s * 1000⌋).toNat % 3600000 / 60000) ++ ":"
          ++ pad2 ((⌊s * 1000⌋).toNat % 60000 / 1000) ++ ","
          ++ pad3 ((⌊s * 1000⌋).toNat % 1000)
    ∧ formatTimecode (599999 / 10000 : ℚ) = "00:00:59,999"
    ∧ formatTimecode (599999 / 10000 : ℚ) ≠ "01:00:00,000" := by
  have h59 := formatTimecode_eval (599999 / 10000) 59999 (by rw [Int.floor_eq_iff] <;> norm_num)
  refine ⟨?_, by unfold formatTimecode; rw [rat_floor_eq_int_floor],
    by rw [h59]; decide, by rw [h59]; decide⟩
  have key : ((⌊s * 1000⌋ : ℚ) / 1000) * 1000 = (⌊s * 1000⌋ : ℚ) :=
    div_mul_cancel₀ _ (by norm_num)
  unfold formatTimecode
  rw [key]
  rw [show ((⌊s * 1000⌋ : ℚ)).floor = ⌊s * 1000⌋ by
    rw [rat_floor_eq_int_floor, Int.floor_intCast]]
  rw [show (s * 1000).floor = ⌊s * 1000⌋ from rat_floor_eq_int_floor _]

/-- C3 witness: the theorem applied at 3661.234 seconds. -/
theorem c3_witness :
    0 ≤ (3661234 / 1000 : ℚ) ∧ formatTimecode (599999 / 10000 : ℚ) = "00:00:59,999" :=
  ⟨by norm_num, (c3_timecode_truncation (3661234 / 1000) (by norm_num)).2.2.1⟩

/-- C6: the language mapping is total with an explicit default: every string
maps to some Language, and every string outside the lookup table maps to
Language.en. -/
theorem c6_language_total_default (s : String) (h : s ∉ languageKeys) :
    (∃ l : Language, map_string_to_language s = l)
    ∧ map_string_to_language s = Language.en := by
  refine ⟨⟨_, rfl⟩, ?_⟩
  unfold map_string_to_language
  split <;> simp_all [languageKeys]

/-- C6 witness: the theorem applied at the unknown string "xx". -/
theorem c6_witness :
    "xx" ∉ languageKeys
    ∧ (∃ l : Language, map_string_to_language "xx" = l)
    ∧ map_string_to_language "xx" = Language.en :=
  ⟨by decide, c6_language_total_default "xx" (by decide)⟩

/-- C8: when the input parses as neither URL nor openable file, source
resolution panics (File::open().await.unwrap() at captions.rs:184), and no
path of source resolution ever returns the declared InputParseError variant. -/
theorem c8_unparseable_input_panics (input : String) (urlParses fileOpens : Bool)
    (mimeGuess : Option Mime) (hu : urlParses = false) (hf : fileOpens = false) :
    resolveSource input urlParses fileOpens mimeGuess = SourceOutcome.panicked
    ∧ ∀ (input2 : String) (u2 f2 : Bool) (m2 : Option Mime) (e : CaptionError),
        resolveSource input2 u2 f2 m2 = SourceOutcome.err e
        → diagnosticCode e ≠ "lamarck::input_parse_error" := by
  subst hu
  subst hf
  refine ⟨by simp [resolveSource], ?_⟩
  intro input2 u2 f2 m2 e he
  unfold resolveSource at he
  cases u2 with
  | true => simp at he
  | false =>
    cases f2 with
    | false => simp at he
    | true =>
      simp only [Bool.false_eq_true, if_false, if_true] at he
      cases m2 with
      | none =>
        have he2 : CaptionError.MimeGuessError input2 = e := by
          simpa using he
        rw [← he2]
        simp [diagnosticCode]
      | some g =>
        by_cases hg : g.ty = "audio"
        · simp [hg] at he
        · have he2 : CaptionError.InvalidMimeType g = e := by
            simpa [hg] using he
          rw [← he2]
          simp [diagnosticCode]

/-- C8 witness: the theorem applied at a concrete unparseable input. -/
theorem c8_witness :
    resolveSource "no scheme here" false false none = SourceOutcome.panicked
    ∧ ∀ (input2 : String) (u2 f2 : Bool) (m2 : Option Mime) (e : CaptionError),
        resolveSource input2 u2 f2 m2 = SourceOutcome.err e
        → diagnosticCode e ≠ "lamarck::input_parse_error" :=
  c8_unparseable_input_panics "no scheme here" false false none rfl rfl

/-- C2 counterexample: for the output location my.video.srt (file stem
my.video), the claim predicts my.video-channel-0-alternative-0.srt, but
set_extension truncates the new file name at its last dot, producing
my.srt. -/
theorem c2_counterexample :
    (srtSectionWrites "my.video.srt" sampleResponse).map (fun ws => ws.map (fun w => w.path))
      = some ["my.srt"]
    ∧ "my.srt" ≠ "my.video-channel-0-alternative-0.srt" := by
  exact ⟨by decide, by decide⟩

/-- C2 (amended): provided the file stem of the user-supplied output location
contains no dot beyond a possible leading one, every rendered document's file
name is the stem with suffix -channel-c-alternative-a.srt (utterance cues) or
-channel-c-alternative-a-beast.srt (word cues), where c and a are the 0-based
positions of the document, which match the source response's channel and
alternative positions (the shape equalities). -/
theorem c2_file_naming (loc st : String) (r : Response)
    (h : fileStem loc = some st)
    (hdot : ∀ x ∈ st.data.drop 1, x ≠ '.') :
    (srtSectionWrites loc r).map (fun ws => ws.map (fun w => w.path))
      = some ((docPairs (srtFromResponse r).channels).map (fun t =>
          st ++ "-channel-" ++ toString t.1 ++ "-alternative-" ++ toString t.2.1 ++ ".srt"))
    ∧ (beastSectionWrites loc r).map (fun ws => ws.map (fun w => w.path))
      = some ((docPairs (beastCaptionsFromResponse r).channels).map (fun t =>
          st ++ "-channel-" ++ toString t.1 ++ "-alternative-" ++ toString t.2.1 ++ "-beast.srt"))
    ∧ (srtFromResponse r).channels.map List.length
        = r.results.channels.map (fun ch => ch.alternatives.length)
    ∧ (beastCaptionsFromResponse r).channels.map List.length
        = r.results.channels.map (fun ch => ch.alternatives.length) := by
  refine ⟨?_, ?_, srt_channels_shape r, beast_channels_shape r⟩
  · unfold srtSectionWrites
    rw [captionWrites_eq "" loc st _ h]
    simp only [Option.map_some', List.map_map]
    congr 1
    apply List.map_congr_left
    intro t _
    show setExtFileName
        (st ++ "-channel-" ++ toString t.1 ++ "-alternative-" ++ toString t.2.1 ++ "") "srt"
      = st ++ "-channel-" ++ toString t.1 ++ "-alternative-" ++ toString t.2.1 ++ ".srt"
    rw [setExtFileName_of_no_tail_dot _ _
      (channelName_no_tail_dot st "" t.1 t.2.1 hdot (by decide))]
    rw [String.append_empty, String.append_assoc]
    rw [show ("." ++ "srt" : String) = ".srt" by decide]
  · unfold beastSectionWrites
    rw [captionWrites_eq "-beast" loc st _ h]
    simp only [Option.map_some', List.map_map]
    congr 1
    apply List.map_congr_left
    intro t _
    show setExtFileName
        (st ++ "-channel-" ++ toString t.1 ++ "-alternative-" ++ toString t.2.1 ++ "-beast") "srt"
      = st ++ "-channel-" ++ toString t.1 ++ "-alternative-" ++ toString t.2.1 ++ "-beast.srt"
    rw [setExtFileName_of_no_tail_dot _ _
      (channelName_no_tail_dot st "-beast" t.1 t.2.1 hdot (by decide))]
    rw [String.append_assoc]
    rw [show ("." ++ "srt" : String) = ".srt" by decide]
    rw [String.append_assoc]
    rw [show ("-beast" ++ ".srt" : String) = "-beast.srt" by decide]

/-- C2 witness: the amended theorem applied at the default location. -/
theorem c2_witness :
    fileStem "transcript.srt" = some "transcript"
    ∧ (srtSectionWrites "transcript.srt" sampleResponse).map (fun ws => ws.map (fun w => w.path))
        = some ((docPairs (srtFromResponse sampleResponse).channels).map (fun t =>
            "transcript" ++ "-channel-" ++ toString t.1 ++ "-alternative-" ++ toString t.2.1
              ++ ".srt")) :=
  ⟨by decide,
   (c2_file_naming "transcript.srt" "transcript" sampleResponse (by decide) (by decide)).1⟩

/-- C4: whenever the output location has a file stem, each renderer section
creates exactly one file per (channel, alternative) pair of the response —
the number of writes equals the total number of alternatives, independent of
how many cues each document holds, so zero-cue documents are never skipped. -/
theorem c4_file_per_pair (loc st : String) (r : Response) (h : fileStem loc = some st) :
    ∃ ws bs, srtSectionWrites loc r = some ws ∧ beastSectionWrites loc r = some bs
      ∧ ws.length = (r.results.channels.map (fun ch => ch.alternatives.length)).sum
      ∧ bs.length = (r.results.channels.map (fun ch => ch.alternatives.length)).sum := by
  unfold srtSectionWrites beastSectionWrites
  rw [captionWrites_eq "" loc st _ h, captionWrites_eq "-beast" loc st _ h]
  refine ⟨_, _, rfl, rfl, ?_, ?_⟩
  · rw [List.length_map, docPairs_length, srt_channels_shape]
  · rw [List.length_map, docPairs_length, beast_channels_shape]

/-- C4 witness: the theorem applied to a response whose single alternative
has empty words and utterances: one (empty) file per renderer is written. -/
theorem c4_witness :
    fileStem "transcript.srt" = some "transcript"
    ∧ ∃ ws bs, srtSectionWrites "transcript.srt" sampleResponse = some ws
        ∧ beastSectionWrites "transcript.srt" sampleResponse = some bs
        ∧ ws.length
            = (sampleResponse.results.channels.map (fun ch => ch.alternatives.length)).sum
        ∧ bs.length
            = (sampleResponse.results.channels.map (fun ch => ch.alternatives.length)).sum :=
  ⟨by decide, c4_file_per_pair "transcript.srt" "transcript" sampleResponse (by decide)⟩

/-- C5: with both the srt and beast_captions flags false, generate_captions
writes no file with the srt extension, regardless of the response contents
and of the raw and transcript flags. -/
theorem c5_no_srt_when_flags_off (debugFmt : Response → String) (opts : Caption)
    (resp : Response) (loc n : String) (ws : List FileWrite)
    (hs : opts.srt = false) (hb : opts.beast_captions = false)
    (hn : fileName loc = some n)
    (hw : outputSectionWrites debugFmt opts resp loc = some ws) :
    ∀ w ∈ ws, (fileStemExt w.path).2 ≠ some "srt" := by
  have hne : n ≠ "" := fileName_ne_empty loc n hn
  have hraw : (fileStemExt (targetAfterSetExtension loc "raw")).2 ≠ some "srt" := by
    unfold targetAfterSetExtension
    rw [hn, fileStemExt_setExt n "raw" hne (by decide)]
    simp
  have htxt : (fileStemExt (targetAfterSetExtension loc "txt")).2 ≠ some "srt" := by
    unfold targetAfterSetExtension
    rw [hn, fileStemExt_setExt n "txt" hne (by decide)]
    simp
  have hmemraw : ∀ w ∈ rawWrites debugFmt opts resp loc,
      (fileStemExt w.path).2 ≠ some "srt" := by
    intro w hwmem
    unfold rawWrites at hwmem
    by_cases hr : opts.raw = true
    · rw [if_pos hr] at hwmem
      simp at hwmem
      rw [hwmem]
      exact hraw
    · rw [if_neg hr] at hwmem
      simp at hwmem
  have hmemtxt : ∀ tws, transcriptWrites loc resp = some tws →
      ∀ w ∈ tws, (fileStemExt w.path).2 ≠ some "srt" := by
    intro tws htws w hwmem
    unfold transcriptWrites at htws
    cases hch : resp.results.channels.head? with
    | none =>
      rw [hch] at htws
      exact absurd htws (by simp)
    | some ch =>
      rw [hch] at htws
      simp only at htws
      cases hca : ch.alternatives.head? with
      | none =>
        rw [hca] at htws
        exact absurd htws (by simp)
      | some alt =>
        rw [hca] at htws
        simp only at htws
        have htws2 : [FileWrite.mk (targetAfterSetExtension loc "txt") alt.transcript] = tws := by
          injection htws
        rw [← htws2] at hwmem
        simp at hwmem
        rw [hwmem]
        exact htxt
  unfold outputSectionWrites at hw
  rw [hs, hb] at hw
  simp only [Bool.false_eq_true, if_false] at hw
  by_cases ht : opts.transcript = true
  · rw [ht, if_pos rfl] at hw
    simp only [Option.bind_eq_bind] at hw
    rcases Option.bind_eq_some.mp hw with ⟨tws, htws, hk⟩
    simp at hk
    intro w hwmem
    rw [← hk] at hwmem
    rcases List.mem_append.mp hwmem with hwm | hwm
    · exact hmemraw w hwm
    · exact hmemtxt tws htws w hwm
  · rw [if_neg ht] at hw
    simp at hw
    intro w hwmem
    rw [← hw] at hwmem
    exact hmemraw w hwmem

/-- C5 witness: the theorem applied to options with only the raw flag set. -/
theorem c5_witness :
    (fileStemExt (FileWrite.mk "transcript.raw" "debug").path).2 ≠ some "srt" :=
  c5_no_srt_when_flags_off (fun _ => "debug") sampleOpts sampleResponse "transcript.srt"
    "transcript.srt" [FileWrite.mk "transcript.raw" "debug"] rfl rfl (by decide) (by decide)
    (FileWrite.mk "transcript.raw" "debug") (by decide)

/-- C7: with the markdown flag set, the writes of generate_captions are
exactly those with the flag clear — no markdown file and no error, only the
warning is added. -/
theorem c7_markdown_warns_only (debugFmt : Response → String) (opts : Caption)
    (resp : Response) (loc : String) (h : opts.markdown = true) :
    outputSectionWrites debugFmt opts resp loc
      = outputSectionWrites debugFmt { opts with markdown := false } resp loc
    ∧ outputSectionWarnings opts = ["markdown output is not yet implemented"]
    ∧ outputSectionWarnings { opts with markdown := false } = [] :=
  ⟨rfl, by simp [outputSectionWarnings, h], by simp [outputSectionWarnings]⟩

/-- C7 witness: the theorem applied to concrete options with markdown set. -/
theorem c7_witness :
    outputSectionWrites (fun _ => "debug") { sampleOpts with markdown := true }
        sampleResponse "transcript.srt"
      = outputSectionWrites (fun _ => "debug")
          { { sampleOpts with markdown := true } with markdown := false }
          sampleResponse "transcript.srt"
    ∧ outputSectionWarnings { sampleOpts with markdown := true }
        = ["markdown output is not yet implemented"]
    ∧ outputSectionWarnings
        { { sampleOpts with markdown := true } with markdown := false } = [] :=
  c7_markdown_warns_only (fun _ => "debug") { sampleOpts with markdown := true }
    sampleResponse "transcript.srt" rfl

/-- C9: with the transcript flag set, a response with no channels, or whose
first channel has no alternatives, makes generate_captions panic (the model's
none) at the channels[0].alternatives[0] indexing instead of returning an
error or writing an empty transcript. -/
theorem c9_transcript_empty_panics (debugFmt : Response → String) (opts : Caption)
    (resp : Response) (loc : String) (ht : opts.transcript = true)
    (hempty : resp.results.channels = []
      ∨ ∃ ch rest, resp.results.channels = ch :: rest ∧ ch.alternatives = []) :
    outputSectionWrites debugFmt opts resp loc = none := by
  have hnone : transcriptWrites loc resp = none := by
    unfold transcriptWrites
    rcases hempty with he | ⟨ch, rest, hc, ha⟩
    · simp [he]
    · simp [hc, ha]
  simp [outputSectionWrites, ht, hnone]

/-- C9 witness: the theorem applied to a response with zero channels. -/
theorem c9_witness :
    outputSectionWrites (fun _ => "debug") { sampleOpts with transcript := true }
      emptyResponse "transcript.srt" = none :=
  c9_transcript_empty_panics (fun _ => "debug") { sampleOpts with transcript := true }
    emptyResponse "transcript.srt" rfl (Or.inl rfl)

/-- C10: with no output path the location defaults to transcript.srt, whose
channel 0 / alternative 0 utterance cues go to
transcript-channel-0-alternative-0.srt, and any bare-filename location (one
with no slash, hence an empty parent) passes the output-directory existence
check no matter what the filesystem contains. -/
theorem c10_default_location (fsExists : String → Bool) (p : String)
    (hne : p ≠ "") (hs : ∀ c ∈ p.data, c ≠ '/') (hd : p ≠ ".") (hdd : p ≠ "..") :
    outputLocation none = "transcript.srt"
    ∧ outputDirExists fsExists p = true
    ∧ (srtSectionWrites "transcript.srt" sampleResponse).map (fun ws => ws.map (fun w => w.path))
        = some ["transcript-channel-0-alternative-0.srt"] := by
  refine ⟨rfl, ?_, by decide⟩
  unfold outputDirExists
  rw [fileName_bare p hne hs hd hdd, parentStr_bare p hne hs hd]
  simp

/-- C10 witness: the theorem applied at transcript.srt itself, over a
filesystem where nothing exists. -/
theorem c10_witness :
    "transcript.srt" ≠ ""
    ∧ outputLocation none = "transcript.srt"
    ∧ outputDirExists (fun _ => false) "transcript.srt" = true
    ∧ (srtSectionWrites "transcript.srt" sampleResponse).map (fun ws => ws.map (fun w => w.path))
        = some ["transcript-channel-0-alternative-0.srt"] :=
  ⟨by decide,
   c10_default_location (fun _ => false) "transcript.srt" (by decide) (by decide)
     (by decide) (by decide)⟩

end Lamarck
